import Mathlib

/-!
# Verification of the netgear_cm_exporter scrape-and-normalize core

A shallow embedding of the scrape/parse/publish core of the
`netgear_cm_exporter` repository (`main.go`, `config.go`), together with
proofs about it.

Modelling conventions:
* Go `float64` values are modelled as exact rationals (`ℚ`).  Every value
  the development evaluates is an exact small decimal, where `float64`
  arithmetic and rational arithmetic agree.
* Go strings are Lean `String`s.  `strings.TrimSpace` is modelled by
  `trimSpace` below (leading and trailing whitespace stripped).
* `fmt.Sscanf(text, "%f <unit>", &x)` is modelled faithfully to Go's
  scan semantics: the `%f` verb scans a maximal leading float token and,
  when `strconv.ParseFloat` accepts the token, *assigns it to the operand
  immediately*; only afterwards is the literal ` <unit>` suffix of the
  format matched, and a mismatch there produces an error *without*
  undoing the assignment.  The calling code in `main.go` ignores the
  error return entirely and reads the operand (zero initialised)
  afterwards.  The model covers the decimal float syntax
  (`sign? digits ['.' digits] [('e'|'E') sign? digits]`); Go's
  additional `Inf`/`NaN`/hex acceptances are unreachable on modem pages
  and are not modelled.
-/

/- The Batteries rational-number operations are `@[irreducible]`, which
blocks `decide`-style evaluation of concrete scrape computations; restore
the default reducibility so that witnesses can be checked by evaluation. -/
set_option allowUnsafeReducibility true in
attribute [semireducible] Rat.ofScientific Rat.mul Rat.inv Rat.add Rat.sub

/-- Go's `unicode.IsSpace` on the characters that can occur in modem
pages: ASCII whitespace plus NEL and NBSP. -/
def goIsSpace (c : Char) : Bool :=
  c = ' ' || c = '\t' || c = '\n' || c.toNat = 11 || c.toNat = 12 || c = '\r'
    || c.toNat = 133 || c.toNat = 160

/-- Model of `strings.TrimSpace`: drop leading and trailing whitespace. -/
def trimSpace (s : String) : String :=
  ⟨((s.toList.dropWhile goIsSpace).reverse.dropWhile goIsSpace).reverse⟩

/-- Decimal digits, most significant first, to a natural number. -/
def digitsToNat (ds : List Char) : ℕ :=
  ds.foldl (fun a c => 10 * a + (c.toNat - 48)) 0

/-- Split a character list into its maximal leading run of decimal digits
and the remainder. -/
def spanDigits (cs : List Char) : List Char × List Char :=
  (cs.takeWhile Char.isDigit, cs.dropWhile Char.isDigit)

/-- Model of the `%f` verb of Go's `fmt` scanner: scan a maximal leading
float token from the input.  Returns the parsed value and the remaining
input when the token is a float `strconv.ParseFloat` accepts, and `none`
when the verb fails (in which case `Sscanf` assigns nothing). -/
def goFloatToken (cs : List Char) : Option (ℚ × List Char) :=
  let signSplit : Bool × List Char :=
    match cs with
    | '-' :: rest => (true, rest)
    | '+' :: rest => (false, rest)
    | _ => (false, cs)
  let neg := signSplit.1
  let (intDs, cs₂) := spanDigits signSplit.2
  let fracSplit : List Char × List Char :=
    match cs₂ with
    | '.' :: rest => spanDigits rest
    | _ => ([], cs₂)
  let fracDs := fracSplit.1
  let cs₃ := if cs₂.head? = some '.' then fracSplit.2 else cs₂
  if intDs.isEmpty && fracDs.isEmpty then
    none
  else
    let mant : ℚ := (digitsToNat intDs : ℚ) + (digitsToNat fracDs : ℚ) / (10 ^ fracDs.length : ℚ)
    let signed : ℚ := if neg then -mant else mant
    match cs₃ with
    | c :: rest =>
      if c = 'e' ∨ c = 'E' then
        let expSplit : Bool × List Char :=
          match rest with
          | '-' :: r => (true, r)
          | '+' :: r => (false, r)
          | _ => (false, rest)
        let (expDs, cs₄) := spanDigits expSplit.2
        if expDs.isEmpty then
          none
        else
          let mag : ℚ :=
            if expSplit.1 then signed / 10 ^ digitsToNat expDs
            else signed * 10 ^ digitsToNat expDs
          some (mag, cs₄)
      else
        some (signed, cs₃)
    | [] => some (signed, [])

/-- Is the character a `fmt` "space" for the purpose of matching a run of
spaces in a scan format (ASCII space or tab)? -/
def isScanSpace (c : Char) : Bool := c = ' ' || c = '\t'

/-- Literal characters of a scan format must each match the input exactly
(`Sscanf` does not require the input to be exhausted afterwards). -/
def litMatches : List Char → List Char → Bool
  | [], _ => true
  | _ :: _, [] => false
  | l :: ls, c :: cs => l = c && litMatches ls cs

/-- Matching of the `" <unit>"` tail of a format of shape `"%f <unit>"`
against the input remaining after the `%f` verb: the run of spaces must
consume at least one input space or find the end of the input, after
which the unit characters must match literally. -/
def matchSpaceRunThenLit (lit : List Char) (rest : List Char) : Bool :=
  match rest with
  | [] => lit.isEmpty
  | c :: _ =>
    if isScanSpace c then litMatches lit (rest.dropWhile isScanSpace)
    else false

/-- Outcome of one `fmt.Sscanf(input, fmt, &x)` call with a single `%f`
operand: the final content of the operand `x` (zero initialised, assigned
as soon as the verb succeeds), the number of operands assigned, and
whether the whole format matched without error. -/
structure SscanfOutcome where
  value : ℚ
  assigned : ℕ
  ok : Bool
deriving DecidableEq, Repr

/-- Model of `fmt.Sscanf(input, "%f <suffix>", &x)` (`suffix = some u`)
or `fmt.Sscanf(input, "%f", &x)` (`suffix = none`), as used in
`Exporter.Collect`.  Per Go semantics the operand is assigned before the
literal suffix is matched, so a suffix mismatch still leaves the scanned
value in the operand. -/
def goSscanfF (suffix : Option String) (input : String) : SscanfOutcome :=
  match goFloatToken input.toList with
  | none => ⟨0, 0, false⟩
  | some (q, rest) =>
    match suffix with
    | none => ⟨q, 1, true⟩
    | some u => ⟨q, 1, matchSpaceRunThenLit u.toList rest⟩

/-- The value the calling code observes after
`fmt.Sscanf(input, "%f <suffix>", &x)` on a zero-initialised `x`,
with the error return ignored (exactly how `Exporter.Collect` calls it). -/
def scanF (suffix : Option String) (input : String) : ℚ :=
  (goSscanfF suffix input).value

/-- Floor of a rational (`q.den` is positive, so flooring the numerator
division gives the true floor). -/
def ratFloor (q : ℚ) : ℤ := Int.fdiv q.num (q.den : ℤ)

/-- `n` rendered in decimal, left padded to two digits: the fractional
part of Go's `%0.2f`. -/
def pad2 (n : ℕ) : String := if n < 10 then "0" ++ toString n else toString n

/-- Model of `fmt.Sprintf("%0.2f", q)`: round to two decimal places and
render with exactly two fractional digits.  (Rounding of exact halves and
the sign of a negative zero differ from Go's binary-float rendering only
on inputs no claim evaluates.) -/
def formatFixed2 (q : ℚ) : String :=
  let n : ℤ := ratFloor (q * 100 + 1 / 2)
  let a := n.natAbs
  (if n < 0 then "-" else "") ++ toString (a / 100) ++ "." ++ pad2 (a % 100)

/-- Model of `fmt.Sprintf("%0.2f MHz", hz/1e6)` from `Exporter.Collect`. -/
def formatMHz (hz : ℚ) : String := formatFixed2 (hz / 1000000) ++ " MHz"

/-! ## Row extractors (`Exporter.Collect`, the two `OnHTML` callbacks) -/

/-- The record assembled from one non-header row of the downstream table
(`#dsTable tbody`): the local variables of the downstream `tr` callback
at the moment the row's metrics are emitted. -/
structure DownstreamReading where
  channel : String
  lockStatus : String
  modulation : String
  channelID : String
  freqMHz : String
  snr : ℚ
  power : ℚ
  corrErrs : ℚ
  unCorrErrs : ℚ
deriving DecidableEq, Repr

/-- The zero values the downstream row variables are declared with. -/
def dsInit : DownstreamReading :=
  { channel := "", lockStatus := "", modulation := "", channelID := ""
  , freqMHz := "", snr := 0, power := 0, corrErrs := 0, unCorrErrs := 0 }

/-- One iteration of the downstream `row.Find("td").Each` callback: the
`switch j` over the cell index (cells at index ≥ 9 fall through with no
effect). -/
def dsCell (r : DownstreamReading) (j : ℕ) (text : String) : DownstreamReading :=
  match j with
  | 0 => { r with channel := trimSpace text }
  | 1 => { r with lockStatus := trimSpace text }
  | 2 => { r with modulation := trimSpace text }
  | 3 => { r with channelID := trimSpace text }
  | 4 => { r with freqMHz := formatMHz (scanF (some "Hz") (trimSpace text)) }
  | 5 => { r with power := scanF (some "dBmV") (trimSpace text) }
  | 6 => { r with snr := scanF (some "dB") (trimSpace text) }
  | 7 => { r with corrErrs := scanF none (trimSpace text) }
  | 8 => { r with unCorrErrs := scanF none (trimSpace text) }
  | _ => r

/-- The downstream row extractor: fold the per-cell `switch` over the
row's cell texts in order, each with its index. -/
def extractDownstreamRow (cells : List String) : DownstreamReading :=
  cells.enum.foldl (fun r p => dsCell r p.1 p.2) dsInit

/-- The record assembled from one non-header row of the upstream table
(`#usTable tbody`). -/
structure UpstreamReading where
  channel : String
  lockStatus : String
  channelType : String
  channelID : String
  symbolRate : ℚ
  freqMHz : String
  power : ℚ
deriving DecidableEq, Repr

/-- The zero values the upstream row variables are declared with. -/
def usInit : UpstreamReading :=
  { channel := "", lockStatus := "", channelType := "", channelID := ""
  , symbolRate := 0, freqMHz := "", power := 0 }

/-- One iteration of the upstream `row.Find("td").Each` callback.  Cell 4
is scanned as `"%f Ksym/sec"` and multiplied by 1000 to convert to
sym/sec. -/
def usCell (r : UpstreamReading) (j : ℕ) (text : String) : UpstreamReading :=
  match j with
  | 0 => { r with channel := trimSpace text }
  | 1 => { r with lockStatus := trimSpace text }
  | 2 => { r with channelType := trimSpace text }
  | 3 => { r with channelID := trimSpace text }
  | 4 => { r with symbolRate := scanF (some "Ksym/sec") (trimSpace text) * 1000 }
  | 5 => { r with freqMHz := formatMHz (scanF (some "Hz") (trimSpace text)) }
  | 6 => { r with power := scanF (some "dBmV") (trimSpace text) }
  | _ => r

/-- The upstream row extractor. -/
def extractUpstreamRow (cells : List String) : UpstreamReading :=
  cells.enum.foldl (fun r p => usCell r p.1 p.2) usInit

/-- The downstream label values, in the order of `dsLabelNames`
(`labels := []string{channel, lockStatus, modulation, channelID, freqMHz}`). -/
def dsLabels (r : DownstreamReading) : List String :=
  [r.channel, r.lockStatus, r.modulation, r.channelID, r.freqMHz]

/-- The upstream label values, in the order of `usLabelNames`. -/
def usLabels (r : UpstreamReading) : List String :=
  [r.channel, r.lockStatus, r.channelType, r.channelID, r.freqMHz]

/-! ## Table scanner (`elem.DOM.Find("tr").Each` with the `i == 0` skip) -/

/-- The per-table scan: rows are visited in document order with their
index `i`; the callback returns immediately for `i == 0` (the header row)
and extracts a record from every other row. -/
def scanTable {α : Type} (extract : List String → α) (rows : List (List String)) : List α :=
  rows.enum.filterMap fun p => if p.1 = 0 then none else some (extract p.2)

/-! ## Metric descriptors and emission (`NewExporter`, `Exporter.Collect`) -/

/-- The metric namespace constant of `main.go`. -/
def namespaceStr : String := "netgear_cm"

/-- Model of `prometheus.BuildFQName`: joins the non-empty components
with `"_"` (empty `name` yields the empty string). -/
def buildFQName (ns sub name : String) : String :=
  if name = "" then ""
  else if ns ≠ "" ∧ sub ≠ "" then ns ++ "_" ++ sub ++ "_" ++ name
  else if ns ≠ "" then ns ++ "_" ++ name
  else if sub ≠ "" then sub ++ "_" ++ name
  else name

/-- `dsLabelNames` from `NewExporter`. -/
def dsLabelNames : List String :=
  ["channel", "lock_status", "modulation", "channel_id", "frequency"]

/-- `usLabelNames` from `NewExporter`. -/
def usLabelNames : List String :=
  ["channel", "lock_status", "channel_type", "channel_id", "frequency"]

/-- A `prometheus.Desc`: fully-qualified metric family name, help text
and variable label names. -/
structure MetricDesc where
  fqName : String
  help : String
  labels : List String
deriving DecidableEq, Repr

/-- The prometheus value type passed to `MustNewConstMetric`. -/
inductive MetricType where
  | counter : MetricType
  | gauge : MetricType
deriving DecidableEq, Repr

/-- One metric sent to the collect channel by `MustNewConstMetric`. -/
structure Metric where
  desc : MetricDesc
  type : MetricType
  value : ℚ
  labelValues : List String
deriving DecidableEq, Repr

/-- `e.dsChannelSNR` as built in `NewExporter`. -/
def dsChannelSNR : MetricDesc :=
  { fqName := buildFQName namespaceStr "downstream_channel" "snr_db"
  , help := "Downstream channel signal to noise ratio in dB."
  , labels := dsLabelNames }

/-- `e.dsChannelPower` as built in `NewExporter`. -/
def dsChannelPower : MetricDesc :=
  { fqName := buildFQName namespaceStr "downstream_channel" "power_dbmv"
  , help := "Downstream channel power in dBmV."
  , labels := dsLabelNames }

/-- `e.dsChannelCorrectableErrs` as built in `NewExporter`. -/
def dsChannelCorrectableErrs : MetricDesc :=
  { fqName := buildFQName namespaceStr "downstream_channel" "correctable_errors_total"
  , help := "Downstream channel correctable errors."
  , labels := dsLabelNames }

/-- `e.dsChannelUncorrectableErrs` as built in `NewExporter`. -/
def dsChannelUncorrectableErrs : MetricDesc :=
  { fqName := buildFQName namespaceStr "downstream_channel" "uncorrectable_errors_total"
  , help := "Downstream channel uncorrectable errors."
  , labels := dsLabelNames }

/-- `e.usChannelPower` as built in `NewExporter`. -/
def usChannelPower : MetricDesc :=
  { fqName := buildFQName namespaceStr "upstream_channel" "power_dbmv"
  , help := "Upstream channel power in dBmV."
  , labels := usLabelNames }

/-- `e.usChannelSymbolRate` as built in `NewExporter` (note the third
`BuildFQName` argument in the source is the string `"power_symbol_rate"`). -/
def usChannelSymbolRate : MetricDesc :=
  { fqName := buildFQName namespaceStr "upstream_channel" "power_symbol_rate"
  , help := "Upstream channel symbol rate per second"
  , labels := usLabelNames }

/-- The four metrics sent for one downstream row, in emission order. -/
def dsRowMetrics (r : DownstreamReading) : List Metric :=
  [ { desc := dsChannelSNR, type := .gauge, value := r.snr, labelValues := dsLabels r }
  , { desc := dsChannelPower, type := .gauge, value := r.power, labelValues := dsLabels r }
  , { desc := dsChannelCorrectableErrs, type := .counter, value := r.corrErrs, labelValues := dsLabels r }
  , { desc := dsChannelUncorrectableErrs, type := .counter, value := r.unCorrErrs, labelValues := dsLabels r } ]

/-- The two metrics sent for one upstream row, in emission order. -/
def usRowMetrics (r : UpstreamReading) : List Metric :=
  [ { desc := usChannelPower, type := .gauge, value := r.power, labelValues := usLabels r }
  , { desc := usChannelSymbolRate, type := .gauge, value := r.symbolRate, labelValues := usLabels r } ]

/-! ## Scrape orchestrator (`Exporter.Collect`) -/

/-- The two process-lifetime counters of the exporter. -/
structure ScrapeState where
  totalScrapes : ℕ
  scrapeErrors : ℕ
deriving DecidableEq, Repr

/-- Outcome of the `c.Visit` fetch: either the request fails (the colly
`OnError` callback fires and no HTML callbacks run), or the document is
retrieved and the two table bodies hold the given rows of cell texts. -/
inductive FetchResult where
  | failure : FetchResult
  | success : List (List String) → List (List String) → FetchResult

/-- What one `Collect` invocation produces: the updated counters and the
channel metrics sent, in order. -/
structure CollectOutput where
  state : ScrapeState
  metrics : List Metric
deriving Repr

/-- Model of `Exporter.Collect`: increment `totalScrapes`
unconditionally; on fetch failure increment `scrapeErrors` and emit no
channel metrics; on success scan the downstream then the upstream table
and emit the per-row metrics. -/
def collect (st : ScrapeState) (fetch : FetchResult) : CollectOutput :=
  let st₁ : ScrapeState := { st with totalScrapes := st.totalScrapes + 1 }
  match fetch with
  | .failure =>
      { state := { st₁ with scrapeErrors := st₁.scrapeErrors + 1 }, metrics := [] }
  | .success dsRows usRows =>
      { state := st₁
      , metrics :=
          (scanTable extractDownstreamRow dsRows).flatMap dsRowMetrics
            ++ (scanTable extractUpstreamRow usRows).flatMap usRowMetrics }

/-! ## Startup (`main`, `NewExporter`, `config.go`) -/

/-- The base64 alphabet of `encoding/base64.StdEncoding`. -/
def base64Table : List Char :=
  "ABCDEFGHIJKLMNOPQRSTUVWXYZabcdefghijklmnopqrstuvwxyz0123456789+/".toList

/-- The base64 digit for a 6-bit value. -/
def b64Char (n : ℕ) : Char := base64Table.getD n 'A'

/-- Standard base64 encoding of a byte sequence, with `=` padding. -/
def base64Encode : List ℕ → String
  | [] => ""
  | [a] => ⟨[b64Char (a / 4), b64Char (a % 4 * 16), '=', '=']⟩
  | [a, b] => ⟨[b64Char (a / 4), b64Char (a % 4 * 16 + b / 16), b64Char (b % 16 * 4), '=']⟩
  | a :: b :: c :: rest =>
      (⟨[b64Char (a / 4), b64Char (a % 4 * 16 + b / 16), b64Char (b % 16 * 4 + c / 64), b64Char (c % 64)]⟩ : String)
        ++ base64Encode rest

/-- `basicAuth` from `main.go`: base64 of `username:password`. -/
def basicAuth (username password : String) : String :=
  base64Encode (((username ++ ":" ++ password).toList.flatMap String.utf8EncodeChar).map UInt8.toNat)

/-- The modem-access fields of the `Exporter` built by `NewExporter`
(the metric descriptors are the fixed values above). -/
structure Exporter where
  url : String
  authHeaderValue : String
deriving Repr

/-- `NewExporter` from `main.go`. -/
def newExporter (addr username password : String) : Exporter :=
  { url := "http://" ++ addr ++ "/DocsisStatus.asp"
  , authHeaderValue := "Basic " ++ basicAuth username password }

/-- `Modem` from `config.go`. -/
structure Modem where
  address : String
  username : String
  password : String
deriving DecidableEq, Repr

/-- `Telemetry` from `config.go`. -/
structure Telemetry where
  listenAddress : String
  metricsPath : String
deriving DecidableEq, Repr

/-- `Config` from `config.go`. -/
structure Config where
  modem : Modem
  telemetry : Telemetry
deriving DecidableEq, Repr

/-- The final validation step of `NewConfigFromFile` (config.go lines
54–56), applied to the config obtained from defaults and the YAML file:
an empty modem password is an error. -/
def configPasswordCheck (config : Config) : Except String Config :=
  if config.modem.password = "" then .error "modem password isn't set in config"
  else .ok config

/-- How startup ends: either the process reaches the serving loop with
the given exporter, or it exits with a non-zero status first. -/
inductive StartupResult where
  | serves : Exporter → StartupResult
  | exitNonZero : StartupResult

/-- Whether startup reached the serving loop. -/
def StartupResult.isServes : StartupResult → Bool
  | .serves _ => true
  | .exitNonZero => false

/-- Model of `main` (main.go lines 246–276) after flag/env/file
resolution has produced the modem address, username and password: the
exporter is built and registered and the process proceeds directly to
`http.ListenAndServe`.  `main` never calls `NewConfigFromFile` and never
inspects the password, so no configuration value causes an early exit. -/
def mainStartup (modemAddress modemUsername modemPassword : String) : StartupResult :=
  .serves (newExporter modemAddress modemUsername modemPassword)

/-! ## Helper lemmas -/

/-- A fold over an index-enumerated list whose step ignores all indices
at or above `m` leaves the accumulator unchanged once the enumeration
starts at or above `m`. -/
theorem foldl_enumFrom_const {α β : Type} (f : β → ℕ × α → β) (m : ℕ)
    (hf : ∀ b n a, m ≤ n → f b (n, a) = b) :
    ∀ (l : List α) (k : ℕ), m ≤ k → ∀ b, (List.enumFrom k l).foldl f b = b := by
  intro l
  induction l with
  | nil => intro k _ b; rfl
  | cons a t ih =>
      intro k hk b
      have h1 : List.enumFrom k (a :: t) = (k, a) :: List.enumFrom (k + 1) t := rfl
      rw [h1, List.foldl_cons, hf b k a hk]
      exact ih (k + 1) (Nat.le_succ_of_le hk) b

/-- The downstream cell switch has no case for indices at or above 9. -/
theorem dsCell_ge (r : DownstreamReading) (t : String) :
    ∀ n, 9 ≤ n → dsCell r n t = r := by
  intro n h
  obtain ⟨m, rfl⟩ := Nat.exists_eq_add_of_le h
  rw [Nat.add_comm]
  rfl

/-- The upstream cell switch has no case for indices at or above 7. -/
theorem usCell_ge (r : UpstreamReading) (t : String) :
    ∀ n, 7 ≤ n → usCell r n t = r := by
  intro n h
  obtain ⟨m, rfl⟩ := Nat.exists_eq_add_of_le h
  rw [Nat.add_comm]
  rfl

/-- Decomposition of an index-enumerated fold over an appended list. -/
theorem foldl_enumFrom_append {α β : Type} (f : β → ℕ × α → β) :
    ∀ (pre tl : List α) (k : ℕ) (b : β),
      (List.enumFrom k (pre ++ tl)).foldl f b
        = (List.enumFrom (k + pre.length) tl).foldl f ((List.enumFrom k pre).foldl f b) := by
  intro pre
  induction pre with
  | nil => intro tl k b; simp
  | cons a t ih =>
      intro tl k b
      rw [List.cons_append, List.enumFrom_cons, List.foldl_cons, ih tl (k + 1) (f b (k, a)),
        List.enumFrom_cons, List.foldl_cons]
      have harith : k + 1 + t.length = k + (a :: t).length := by
        rw [List.length_cons]
        omega
      rw [harith]

/-- Downstream rows: cells beyond index 8 have no effect. -/
theorem extractDownstreamRow_append (c0 c1 c2 c3 c4 c5 c6 c7 c8 : String)
    (tl : List String) :
    extractDownstreamRow (c0 :: c1 :: c2 :: c3 :: c4 :: c5 :: c6 :: c7 :: c8 :: tl)
      = extractDownstreamRow [c0, c1, c2, c3, c4, c5, c6, c7, c8] := by
  have h := foldl_enumFrom_append (fun r p => dsCell r p.1 p.2)
    [c0, c1, c2, c3, c4, c5, c6, c7, c8] tl 0 dsInit
  calc extractDownstreamRow (c0 :: c1 :: c2 :: c3 :: c4 :: c5 :: c6 :: c7 :: c8 :: tl)
      = (List.enumFrom 9 tl).foldl (fun r p => dsCell r p.1 p.2)
          ((List.enumFrom 0 [c0, c1, c2, c3, c4, c5, c6, c7, c8]).foldl
            (fun r p => dsCell r p.1 p.2) dsInit) := h
    _ = (List.enumFrom 0 [c0, c1, c2, c3, c4, c5, c6, c7, c8]).foldl
          (fun r p => dsCell r p.1 p.2) dsInit :=
        foldl_enumFrom_const _ 9 (fun b n a hn => dsCell_ge b a n hn) tl 9 (Nat.le_refl 9) _
    _ = extractDownstreamRow [c0, c1, c2, c3, c4, c5, c6, c7, c8] := rfl

/-- Upstream rows: cells beyond index 6 have no effect. -/
theorem extractUpstreamRow_append (c0 c1 c2 c3 c4 c5 c6 : String) (tl : List String) :
    extractUpstreamRow (c0 :: c1 :: c2 :: c3 :: c4 :: c5 :: c6 :: tl)
      = extractUpstreamRow [c0, c1, c2, c3, c4, c5, c6] := by
  have h := foldl_enumFrom_append (fun r p => usCell r p.1 p.2)
    [c0, c1, c2, c3, c4, c5, c6] tl 0 usInit
  calc extractUpstreamRow (c0 :: c1 :: c2 :: c3 :: c4 :: c5 :: c6 :: tl)
      = (List.enumFrom 7 tl).foldl (fun r p => usCell r p.1 p.2)
          ((List.enumFrom 0 [c0, c1, c2, c3, c4, c5, c6]).foldl
            (fun r p => usCell r p.1 p.2) usInit) := h
    _ = (List.enumFrom 0 [c0, c1, c2, c3, c4, c5, c6]).foldl
          (fun r p => usCell r p.1 p.2) usInit :=
        foldl_enumFrom_const _ 7 (fun b n a hn => usCell_ge b a n hn) tl 7 (Nat.le_refl 7) _
    _ = extractUpstreamRow [c0, c1, c2, c3, c4, c5, c6] := rfl

/-- Enumerating from a positive index, the header-skip filter keeps every
element. -/
theorem filterMap_enumFrom_pos {α : Type} (e : List String → α) :
    ∀ (l : List (List String)) (k : ℕ),
      (List.enumFrom (k + 1) l).filterMap
          (fun p => if p.1 = 0 then none else some (e p.2))
        = l.map e := by
  intro l
  induction l with
  | nil => intro k; rfl
  | cons a t ih =>
      intro k
      have h1 : List.enumFrom (k + 1) (a :: t) = (k + 1, a) :: List.enumFrom (k + 2) t := rfl
      rw [h1, List.filterMap_cons]
      simp [ih (k + 1)]

/-- The table scan is: drop the header row, extract every remaining row
in order. -/
theorem scanTable_eq_drop_map {α : Type} (e : List String → α) (rows : List (List String)) :
    scanTable e rows = (rows.drop 1).map e := by
  cases rows with
  | nil => rfl
  | cons h t =>
      show (List.enumFrom 0 (h :: t)).filterMap
          (fun p => if p.1 = 0 then none else some (e p.2)) = t.map e
      have h1 : List.enumFrom 0 (h :: t) = (0, h) :: List.enumFrom 1 t := rfl
      rw [h1, List.filterMap_cons]
      simp only [if_pos rfl]
      exact filterMap_enumFrom_pos e t 0

/-- The scanned `%f` suffix never influences the value left in the
operand. -/
theorem scanF_suffix_irrelevant (u v : Option String) (s : String) :
    scanF u s = scanF v s := by
  simp only [scanF, goSscanfF]
  cases goFloatToken s.toList with
  | none => rfl
  | some p =>
      obtain ⟨q, rest⟩ := p
      cases u <;> cases v <;> rfl

/-- When the `%f` verb fails, the operand keeps its zero value. -/
theorem scanF_of_token_none {s : String} (u : Option String)
    (h : goFloatToken s.toList = none) : scanF u s = 0 := by
  have h' : goFloatToken s.data = none := h
  simp [scanF, goSscanfF, h']

/-- When the `%f` verb scans a token, the operand holds its value, for
any suffix. -/
theorem scanF_of_token_some {s : String} {q : ℚ} {rest : List Char} (u : Option String)
    (h : goFloatToken s.toList = some (q, rest)) : scanF u s = q := by
  have h' : goFloatToken s.data = some (q, rest) := h
  cases u <;> simp [scanF, goSscanfF, h']

/-- The frequency label always ends in `" MHz"`, hence is never empty. -/
theorem formatMHz_ne_empty (q : ℚ) : formatMHz q ≠ "" := by
  intro he
  have h : (formatMHz q).length = (formatFixed2 (q / 1000000)).length + 4 := by
    have : (" MHz" : String).length = 4 := rfl
    rw [formatMHz, String.length_append, this]
  rw [he] at h
  have h0 : ("" : String).length = 0 := rfl
  rw [h0] at h
  omega

/-! ## Claim theorems -/

/-- Claim C1: for every downstream table row of nine cells the Row
Extractor produces the record whose string fields are the trimmed cell
texts and whose numeric fields are the parsed cell values (frequency
normalized to a two-decimal MHz label); in particular the row
`["1","Locked","QAM256","5","602000000 Hz","0.6 dBmV","38.5 dB","15","0"]`
yields channel `"1"`, lock status `"Locked"`, modulation `"QAM256"`,
channel id `"5"`, frequency `"602.00 MHz"`, power `0.6`, SNR `38.5`,
correctable `15`, uncorrectable `0`. -/
theorem C1_downstream_row_extraction :
    (∀ c0 c1 c2 c3 c4 c5 c6 c7 c8 : String,
        extractDownstreamRow [c0, c1, c2, c3, c4, c5, c6, c7, c8]
          = { channel := trimSpace c0
            , lockStatus := trimSpace c1
            , modulation := trimSpace c2
            , channelID := trimSpace c3
            , freqMHz := formatMHz (scanF (some "Hz") (trimSpace c4))
            , snr := scanF (some "dB") (trimSpace c6)
            , power := scanF (some "dBmV") (trimSpace c5)
            , corrErrs := scanF none (trimSpace c7)
            , unCorrErrs := scanF none (trimSpace c8) })
    ∧ extractDownstreamRow
        ["1", "Locked", "QAM256", "5", "602000000 Hz", "0.6 dBmV", "38.5 dB", "15", "0"]
        = { channel := "1", lockStatus := "Locked", modulation := "QAM256", channelID := "5"
          , freqMHz := "602.00 MHz", snr := 38.5, power := 0.6
          , corrErrs := 15, unCorrErrs := 0 } :=
  ⟨fun _ _ _ _ _ _ _ _ _ => rfl, by decide⟩

/-- Claim C2 counterexample: the cell text `"38.5 dB"` does not match the
expected pattern `"<float> dBmV"` (the scan reports an error), yet the
Field Parser returns `38.5`, not `0` — Go's `Sscanf` assigns the `%f`
operand before the unit literal is matched, and the caller ignores the
error. -/
theorem C2_field_parser_counterexample :
    (goSscanfF (some "dBmV") "38.5 dB").ok = false
    ∧ scanF (some "dBmV") "38.5 dB" = 38.5
    ∧ scanF (some "dBmV") "38.5 dB" ≠ 0 := by
  refine ⟨by decide, by decide, by decide⟩

/-- Claim C2 as amended: for every cell text that begins with a valid
float token the Field Parser returns that token's value regardless of the
expected unit suffix — so a numeric prefix followed by the wrong unit
yields the prefix, not `0` — and for every cell text with no valid
leading float token (including the empty string and non-numeric text) it
returns `0`; texts matching `"<float> <unit>"` exactly also return the
numeric prefix. -/
theorem C2_field_parser_amended :
    (∀ (u v : Option String) (s : String), scanF u s = scanF v s)
    ∧ (∀ (u : Option String) (s : String),
        goFloatToken s.toList = none → scanF u s = 0)
    ∧ (∀ (u : Option String) (s : String) (q : ℚ) (rest : List Char),
        goFloatToken s.toList = some (q, rest) → scanF u s = q)
    ∧ scanF (some "dBmV") "0.6 dBmV" = 0.6
    ∧ scanF (some "dB") "38.5 dB" = 38.5
    ∧ scanF (some "Hz") "602000000 Hz" = 602000000
    ∧ scanF none "15" = 15
    ∧ scanF (some "dBmV") "" = 0
    ∧ scanF (some "dBmV") "abc" = 0
    ∧ scanF (some "dBmV") "38.5 dB" = 38.5 :=
  ⟨scanF_suffix_irrelevant,
   fun u s h => scanF_of_token_none u h,
   fun u _ _ _ h => scanF_of_token_some u h,
   by decide, by decide, by decide, by decide, by decide, by decide, by decide⟩

/-- Claim C2 amended, witness: the general clauses applied at concrete
inputs. -/
theorem C2_field_parser_amended_witness :
    scanF (some "dBmV") "xyz" = 0 ∧ scanF (some "Hz") "7 Hz" = 7 :=
  ⟨C2_field_parser_amended.2.1 (some "dBmV") "xyz" (by decide),
   C2_field_parser_amended.2.2.1 (some "Hz") "7 Hz" 7 [' ', 'H', 'z'] (by decide)⟩

/-- Claim C3: for every upstream table row of seven cells the Row
Extractor multiplies the scanned Ksym/sec value by 1000 and renders the
frequency as Hz divided by 1000000 to two decimals with a `" MHz"`
suffix; in particular the row
`["1","Locked","ATDMA","1","5120 Ksym/sec","39008000 Hz","41.0 dBmV"]`
yields symbol rate `5120000`, frequency `"39.01 MHz"` and power `41.0`. -/
theorem C3_upstream_row_extraction :
    (∀ c0 c1 c2 c3 c4 c5 c6 : String,
        extractUpstreamRow [c0, c1, c2, c3, c4, c5, c6]
          = { channel := trimSpace c0
            , lockStatus := trimSpace c1
            , channelType := trimSpace c2
            , channelID := trimSpace c3
            , symbolRate := scanF (some "Ksym/sec") (trimSpace c4) * 1000
            , freqMHz := formatMHz (scanF (some "Hz") (trimSpace c5))
            , power := scanF (some "dBmV") (trimSpace c6) })
    ∧ extractUpstreamRow
        ["1", "Locked", "ATDMA", "1", "5120 Ksym/sec", "39008000 Hz", "41.0 dBmV"]
        = { channel := "1", lockStatus := "Locked", channelType := "ATDMA", channelID := "1"
          , symbolRate := 5120000, freqMHz := "39.01 MHz", power := 41.0 } :=
  ⟨fun _ _ _ _ _ _ _ => rfl, by decide⟩

/-- Claim C4: the Table Scanner skips exactly the row at index 0 and
emits one record per subsequent row in document order; a table body of
one header row plus four data rows yields exactly four records. -/
theorem C4_table_scanner_skips_header :
    (∀ (α : Type) (extract : List String → α) (rows : List (List String)),
        scanTable extract rows = (rows.drop 1).map extract)
    ∧ (∀ (α : Type) (extract : List String → α) (rows : List (List String)),
        (scanTable extract rows).length = rows.length - 1)
    ∧ (∀ h r1 r2 r3 r4 : List String,
        (scanTable extractDownstreamRow [h, r1, r2, r3, r4]).length = 4) := by
  refine ⟨fun α e rows => scanTable_eq_drop_map e rows, fun α e rows => ?_, fun h r1 r2 r3 r4 => ?_⟩
  · rw [scanTable_eq_drop_map, List.length_map, List.length_drop]
  · rw [scanTable_eq_drop_map]
    rfl

/-- Claim C5: every `Collect` invocation increments the attempted
counter `status_scrapes_total` exactly once regardless of outcome; a
failed fetch additionally increments `status_scrape_errors_total` by
exactly one and emits zero channel readings, while a successful fetch
leaves the error counter unchanged. -/
theorem C5_scrape_counters :
    ∀ st : ScrapeState,
      ((collect st .failure).state.totalScrapes = st.totalScrapes + 1
        ∧ (collect st .failure).state.scrapeErrors = st.scrapeErrors + 1
        ∧ (collect st .failure).metrics = [])
      ∧ ∀ dsRows usRows : List (List String),
          (collect st (.success dsRows usRows)).state.totalScrapes = st.totalScrapes + 1
          ∧ (collect st (.success dsRows usRows)).state.scrapeErrors = st.scrapeErrors :=
  fun _ => ⟨⟨rfl, rfl, rfl⟩, fun _ _ => ⟨rfl, rfl⟩⟩

/-- Claim C6: the upstream symbol-rate family is emitted per scrape as a
gauge with labels channel, lock_status, channel_type, channel_id,
frequency — but its fully-qualified name is
`netgear_cm_upstream_channel_power_symbol_rate` (the source passes
`"power_symbol_rate"` to `BuildFQName`), not
`netgear_cm_upstream_channel_symbol_rate` as the claim states. -/
theorem C6_upstream_symbol_rate_metric_name :
    usChannelSymbolRate.fqName = "netgear_cm_upstream_channel_power_symbol_rate"
    ∧ usChannelSymbolRate.fqName ≠ "netgear_cm_upstream_channel_symbol_rate"
    ∧ buildFQName namespaceStr "upstream_channel" "symbol_rate"
        = "netgear_cm_upstream_channel_symbol_rate"
    ∧ usChannelSymbolRate.labels
        = ["channel", "lock_status", "channel_type", "channel_id", "frequency"]
    ∧ usChannelSymbolRate.help = "Upstream channel symbol rate per second"
    ∧ ∀ r : UpstreamReading,
        usRowMetrics r
          = [ { desc := usChannelPower, type := .gauge, value := r.power
              , labelValues := usLabels r }
            , { desc := usChannelSymbolRate, type := .gauge, value := r.symbolRate
              , labelValues := usLabels r } ] :=
  ⟨by decide, by decide, by decide, by decide, by decide, fun _ => rfl⟩

/-- Claim C7: `main` builds the exporter from the resolved flag values
and proceeds straight to serving — it never validates the password, so a
missing (empty) password does not cause a non-zero exit; the only
password check in the repository is the one inside `NewConfigFromFile`,
which `main` never calls. -/
theorem C7_missing_password_startup :
    (∀ addr user pass : String, (mainStartup addr user pass).isServes = true)
    ∧ (mainStartup "192.168.100.1" "admin" "").isServes = true
    ∧ configPasswordCheck
        { modem := { address := "192.168.100.1", username := "admin", password := "" }
        , telemetry := { listenAddress := ":9527", metricsPath := "/metrics" } }
        = Except.error "modem password isn't set in config" :=
  ⟨fun _ _ _ => rfl, rfl, rfl⟩

/-- Claim C8 counterexample: the downstream row whose channel cell is a
single space is emitted with channel label `""` — an empty label value —
and its frequency label is the normalized `"602.00 MHz"`, which is not
the trimmed text `"602000000 Hz"` of the frequency cell. -/
theorem C8_label_invariant_counterexample :
    (scanTable extractDownstreamRow
        [[], [" ", "Locked", "QAM256", "5", "602000000 Hz", "0.6 dBmV", "38.5 dB", "15", "0"]]).map
        dsLabels
      = [["", "Locked", "QAM256", "5", "602.00 MHz"]]
    ∧ ("" ∈ (["", "Locked", "QAM256", "5", "602.00 MHz"] : List String))
    ∧ "602.00 MHz" ≠ trimSpace "602000000 Hz" := by
  refine ⟨by decide, by decide, by decide⟩

/-- Claim C8 as amended: for every emitted reading the first four label
values (channel, lock_status, modulation/channel_type, channel_id) equal
the corresponding cell's text with surrounding whitespace trimmed — and
may be empty when the cell is blank — while the frequency label is the
normalized two-decimal MHz string derived from the frequency cell, which
is never empty (but is not the raw cell text). -/
theorem C8_label_invariant_amended :
    (∀ c0 c1 c2 c3 c4 c5 c6 c7 c8 : String,
        dsLabels (extractDownstreamRow [c0, c1, c2, c3, c4, c5, c6, c7, c8])
          = [trimSpace c0, trimSpace c1, trimSpace c2, trimSpace c3,
             formatMHz (scanF (some "Hz") (trimSpace c4))])
    ∧ (∀ c0 c1 c2 c3 c4 c5 c6 : String,
        usLabels (extractUpstreamRow [c0, c1, c2, c3, c4, c5, c6])
          = [trimSpace c0, trimSpace c1, trimSpace c2, trimSpace c3,
             formatMHz (scanF (some "Hz") (trimSpace c5))])
    ∧ (∀ q : ℚ, formatMHz q ≠ "") :=
  ⟨fun _ _ _ _ _ _ _ _ _ => rfl, fun _ _ _ _ _ _ _ => rfl, formatMHz_ne_empty⟩

/-- Claim C10 counterexample: a downstream row with only four cells (no
frequency cell) is extracted with frequency label `""`, the string zero
value — not `"0.00 MHz"` — so the frequency label can be empty. -/
theorem C10_short_row_counterexample :
    (extractDownstreamRow ["1", "Locked", "QAM256", "5"]).freqMHz = ""
    ∧ (extractDownstreamRow ["1", "Locked", "QAM256", "5"]).freqMHz ≠ "0.00 MHz" := by
  refine ⟨by decide, by decide⟩

/-- Claim C10 as amended: a record is produced for every non-header row
whatever its cell count; cells beyond the expected column count (9
downstream, 7 upstream) are ignored; missing cells leave string fields
as the empty string and numeric fields zero — in particular the
frequency label is the empty string when the frequency cell is absent —
and a present-but-malformed frequency cell yields the label
`"0.00 MHz"`. -/
theorem C10_row_shape_amended :
    (∀ c4 : String, goFloatToken (trimSpace c4).toList = none →
        formatMHz (scanF (some "Hz") (trimSpace c4)) = "0.00 MHz")
    ∧ (∀ c0 c1 c2 c3 c4 c5 c6 c7 c8 : String, ∀ tl : List String,
        extractDownstreamRow (c0 :: c1 :: c2 :: c3 :: c4 :: c5 :: c6 :: c7 :: c8 :: tl)
          = extractDownstreamRow [c0, c1, c2, c3, c4, c5, c6, c7, c8])
    ∧ (∀ c0 c1 c2 c3 c4 c5 c6 : String, ∀ tl : List String,
        extractUpstreamRow (c0 :: c1 :: c2 :: c3 :: c4 :: c5 :: c6 :: tl)
          = extractUpstreamRow [c0, c1, c2, c3, c4, c5, c6])
    ∧ (∀ c0 c1 c2 c3 : String,
        extractDownstreamRow [c0, c1, c2, c3]
          = { dsInit with
                channel := trimSpace c0, lockStatus := trimSpace c1,
                modulation := trimSpace c2, channelID := trimSpace c3 })
    ∧ extractDownstreamRow [] = dsInit
    ∧ extractUpstreamRow [] = usInit
    ∧ (∀ rows : List (List String),
        (scanTable extractDownstreamRow rows).length = rows.length - 1) := by
  refine ⟨fun c4 h => ?_, extractDownstreamRow_append, extractUpstreamRow_append,
    fun _ _ _ _ => rfl, rfl, rfl, fun rows => ?_⟩
  · rw [scanF_of_token_none _ h]
    decide
  · rw [scanTable_eq_drop_map, List.length_map, List.length_drop]

/-- Claim C10 amended, witness: the malformed-frequency clause applied at
the concrete cell text `"n/a"`. -/
theorem C10_row_shape_amended_witness :
    formatMHz (scanF (some "Hz") (trimSpace "n/a")) = "0.00 MHz" :=
  C10_row_shape_amended.1 "n/a" (by decide)
